import Mathlib

/-!
A shallow embedding of `installer/generate_secrets.py`: the secret
resolution and merge engine of the repository (the `SecretGenerator` and
`OnePasswordSecretGenerator` classes and the `__main__` orchestration).

Python dictionaries (`self.secrets`, `self.op_secrets`) are modelled as
insertion-ordered association lists with upsert-in-place semantics, which
matches CPython dict behaviour for the unique-key dictionaries built here.
Optional 1Password field values (`field.value` may be `None`) are modelled
as `Option String`; Python truthiness of such a value is `truthy` below.
The nondeterministic credential primitives (`bcrypt.hashpw`,
`datetime.now`, `secrets.token_hex`) are passed in as explicit parameters,
since the spec treats them as pluggable primitives.
-/

/-- One component's secret dictionary (a Python `dict` from field name to
value), as an insertion-ordered association list. -/
abbrev FieldMap := List (String × String)

/-- The in-memory record set `self.secrets`: component name to field map. -/
abbrev Store := List (String × FieldMap)

/-- Python dict lookup: `d.get(k)` (and `d[k]` when the result is `some`). -/
def dict_lookup : FieldMap → String → Option String
  | [], _ => none
  | e :: rest, k => if e.1 = k then some e.2 else dict_lookup rest k

/-- Python dict upsert `d[k] = v`: replaces the entry in place when the key
is present, otherwise appends at the end (insertion order). -/
def dict_set : FieldMap → String → String → FieldMap
  | [], k, v => [(k, v)]
  | e :: rest, k, v => if e.1 = k then (k, v) :: rest else e :: dict_set rest k v

/-- `self.secrets[component].get(name)`; also `SecretGenerator._get_current`
(which returns `None` when `_exists` is false). -/
def getS : Store → String → String → Option String
  | [], _, _ => none
  | e :: rest, c, n => if e.1 = c then dict_lookup e.2 n else getS rest c n

/-- `SecretGenerator._set`: `self.secrets[component][name] = new_value`
(the `defaultdict` creates the component entry on demand). -/
def setS : Store → String → String → String → Store
  | [], c, n, v => [(c, [(n, v)])]
  | e :: rest, c, n, v =>
    if e.1 = c then (e.1, dict_set e.2 n v) :: rest else e :: setS rest c n v

/-- `SecretGenerator._exists`: `component in self.secrets and name in
self.secrets[component]`. -/
def existsS (s : Store) (c n : String) : Bool := (getS s c n).isSome

/-- `SecretGenerator._set_generated`: write `new_value` only when the field
does not exist yet or the regenerate flag is set. -/
def set_generated (s : Store) (c n v : String) (regenerate : Bool) : Store :=
  if existsS s c n = false ∨ regenerate = true then setS s c n v else s

/-- Uncaught Python exceptions of the engine: a second
`generate_secrets_key` field on one vault item, a missing 1Password entry,
an unrecognized cert-manager branch value, a dict `KeyError`, and the
`ValueError` from unpacking a generation key that does not split into
exactly two tokens. -/
inductive PyError where
  | duplicateKey : PyError
  | opNotFound : String → PyError
  | invalidCertManager : String → PyError
  | keyError : String → String → PyError
  | unpackError : String → PyError
  deriving DecidableEq

/-- Python truthiness of an optional string: `None` and `""` are falsy. -/
def truthy : Option String → Bool
  | none => false
  | some s => !(s == "")

/-- Python `a or b` on optional strings: `a` when truthy, else `b`. -/
def py_or (a b : Option String) : Option String := if truthy a then a else b

/-- The source adapter capability contract: `input_field` and `input_file`
supply a value for a field reference, mutating the store.  The interactive
`SecretGenerator` and the vault-backed `OnePasswordSecretGenerator`
implement it (the latter by overriding both methods). -/
structure Adapter where
  input_field : String → String → Store → Except PyError Store
  input_file : String → String → Store → Except PyError Store

/-- `SecretGenerator.input_field`: show the current value as default and
replace it only when the operator supplies non-empty input; `inputs c n` is
the string the operator types at the prompt for field `(c, n)`. -/
def interactive_field (inputs : String → String → String) (c n : String) (s : Store) :
    Except PyError Store :=
  let input_string := inputs c n
  .ok (if input_string = "" then s else setS s c n input_string)

/-- `SecretGenerator.input_file`: read a replacement payload from a file
when the operator names one; `files c n` is `none` when the operator leaves
the filename prompt empty, else the named file's contents. -/
def interactive_file (files : String → String → Option String) (c n : String) (s : Store) :
    Except PyError Store :=
  match files c n with
  | none => .ok s
  | some contents => .ok (setS s c n contents)

/-- The interactive source adapter. -/
def interactive_adapter (inputs : String → String → String)
    (files : String → String → Option String) : Adapter :=
  ⟨interactive_field inputs, interactive_file files⟩

/-- `OnePasswordSecretGenerator.input_field`: look the field up in the
resolved `op_secrets` mapping under the key `"component name"` and raise
when no entry exists. -/
def op_field (op_secrets : FieldMap) (c n : String) (s : Store) : Except PyError Store :=
  let key := c ++ " " ++ n
  match dict_lookup op_secrets key with
  | none => .error (.opNotFound key)
  | some v => .ok (setS s c n v)

/-- The vault-backed source adapter; its `input_file` just delegates to
`input_field`. -/
def op_adapter (op_secrets : FieldMap) : Adapter :=
  ⟨op_field op_secrets, op_field op_secrets⟩

/-- `SecretGenerator._pull_secret`. -/
def pull_secret (a : Adapter) (s : Store) : Except PyError Store :=
  a.input_file "pull-secret" ".dockerconfigjson" s

/-- `SecretGenerator._ingress_nginx`: resolve the static ingress TLS pair. -/
def ingress_nginx (a : Adapter) (s : Store) : Except PyError Store :=
  match a.input_file "ingress-nginx" "tls.key" s with
  | .error e => .error e
  | .ok s1 => a.input_file "ingress-nginx" "tls.crt" s1

/-- Modelled from the spec: the `_cert_manager` method is called from
`SecretGenerator.generate` but its definition is absent from the source
tree (only the call site exists).  Per spec sections 4.2 and 8 the "y"
branch "resolves only the certificate-manager field set" through the
source adapter; the spec does not enumerate that field set, so it is a
parameter here. -/
def cert_manager (a : Adapter) : List String → Store → Except PyError Store
  | [], s => .ok s
  | f :: rest, s =>
    match a.input_field "cert-manager" f s with
    | .error e => .error e
    | .ok s' => cert_manager a rest s'

/-- `SecretGenerator._argocd`: snapshot the current plaintext admin
password, resolve it through the adapter, recompute the bcrypt hash and
mtime pair when the resolved value differs or regeneration is forced,
resolve the OAuth client secret, and generate the server secret key.  The
hasher and clock are parameters (`hash_of new_pw` models
`bcrypt.hashpw(new_pw, ...)`, `now_time` the formatted UTC timestamp, and
`fresh_token` models `secrets.token_hex(16)`).  The conditional hash and
mtime step `if current_pw != new_pw or self.regenerate` is factored out as
`argocd_mid`. -/
def argocd_mid (regenerate : Bool) (hash_of : String → String) (now_time : String)
    (current_pw : Option String) (new_pw : String) (s1 : Store) : Store :=
  if current_pw ≠ some new_pw ∨ regenerate = true then
    setS (setS s1 "argocd" "admin.password" (hash_of new_pw))
      "argocd" "admin.passwordMtime" now_time
  else s1

/-- The rest of `SecretGenerator._argocd` around `argocd_mid`: resolve the
plaintext, recompute the pair when applicable, resolve the OAuth client
secret and generate the server secret key. -/
def argocd (a : Adapter) (regenerate : Bool) (hash_of : String → String)
    (now_time fresh_token : String) (s : Store) : Except PyError Store :=
  let current_pw := getS s "installer" "argocd.admin.plaintext_password"
  match a.input_field "installer" "argocd.admin.plaintext_password" s with
  | .error e => .error e
  | .ok s1 =>
    match getS s1 "installer" "argocd.admin.plaintext_password" with
    | none => .error (.keyError "installer" "argocd.admin.plaintext_password")
    | some new_pw =>
      match a.input_field "argocd" "dex.clientSecret"
          (argocd_mid regenerate hash_of now_time current_pw new_pw s1) with
      | .error e => .error e
      | .ok s3 => .ok (set_generated s3 "argocd" "server.secretkey" fresh_token regenerate)

/-- The cert-manager branch of `SecretGenerator.generate`: dispatch on the
resolved value of the `cert-manager enabled` field, raising on anything
other than "y" or "n". -/
def branch_on (a : Adapter) (cm_fields : List String) (v : String) (s : Store) :
    Except PyError Store :=
  if v = "y" then cert_manager a cm_fields s
  else if v = "n" then ingress_nginx a s
  else .error (.invalidCertManager v)

/-- `SecretGenerator.generate`: pull secret, ArgoCD, then the cert-manager
branch field and its dispatch.  Reading `self.secrets["cert-manager"]["enabled"]`
raises a `KeyError` when the field was never set. -/
def generate (a : Adapter) (regenerate : Bool) (hash_of : String → String)
    (now_time fresh_token : String) (cm_fields : List String) (s : Store) :
    Except PyError Store :=
  match pull_secret a s with
  | .error e => .error e
  | .ok s1 =>
    match argocd a regenerate hash_of now_time fresh_token s1 with
    | .error e => .error e
    | .ok s2 =>
      match a.input_field "cert-manager" "enabled" s2 with
      | .error e => .error e
      | .ok s3 =>
        match getS s3 "cert-manager" "enabled" with
        | none => .error (.keyError "cert-manager" "enabled")
        | some v => branch_on a cm_fields v s3

/-- Helper for `save`: write one component's file into the secrets
directory, overwriting an existing file of the same name. -/
def set_file : Store → String → FieldMap → Store
  | [], c, fm => [(c, fm)]
  | e :: rest, c, fm => if e.1 = c then (c, fm) :: rest else e :: set_file rest c fm

/-- `SecretGenerator.save`: write one file per component of the in-memory
record set, overwriting those files and leaving any other file in the
directory in place.  JSON serialization (out of spec scope) is modelled as
the field map itself, so the on-disk secrets directory also has type
`Store`. -/
def save (disk : Store) (s : Store) : Store :=
  s.foldl (fun d e => set_file d e.1 e.2) disk

/-- The `__main__` orchestration `sg.load(); sg.generate(); sg.save()`:
`load` reads the persisted record set (the identity under the serialization
model), an exception from `generate` propagates to the top level before
`save` runs, and only a successful `generate` reaches `save`.  The result
is the on-disk state after the run paired with the propagated error, if
any. -/
def run_main (a : Adapter) (regenerate : Bool) (hash_of : String → String)
    (now_time fresh_token : String) (cm_fields : List String) (disk : Store) :
    Store × Option PyError :=
  match generate a regenerate hash_of now_time fresh_token cm_fields disk with
  | .error e => (disk, some e)
  | .ok s' => (save disk s', none)

/-- One field of a 1Password item as seen by `parse_vault`: its label, its
purpose and its (possibly null) value. -/
structure OPField where
  label : String
  purpose : String
  value : Option String
  deriving DecidableEq

/-- One 1Password vault item: its title and its fields. -/
structure OPItem where
  title : String
  fields : List OPField
  deriving DecidableEq

/-- The inner field loop of `OnePasswordSecretGenerator.parse_vault`,
accumulating `key`, `secret_notes`, `secret_password` and `environments`
and raising when a second `generate_secrets_key` field appears while `key`
is already non-null. -/
def scan_fields : List OPField → Option String → Option String → Option String →
    List (Option String) →
    Except PyError (Option String × Option String × Option String × List (Option String))
  | [], key, notes, pw, envs => .ok (key, notes, pw, envs)
  | f :: rest, key, notes, pw, envs =>
    if f.label = "generate_secrets_key" then
      match key with
      | none => scan_fields rest f.value notes pw envs
      | some _ => .error .duplicateKey
    else if f.label = "environment" then scan_fields rest key notes pw (envs ++ [f.value])
    else if f.label = "notesPlain" then scan_fields rest key f.value pw envs
    else if f.purpose = "PASSWORD" then scan_fields rest key notes f.value envs
    else scan_fields rest key notes pw envs

/-- Scan one item's fields starting from the all-`None` accumulator. -/
def scan_item (item : OPItem) :
    Except PyError (Option String × Option String × Option String × List (Option String)) :=
  scan_fields item.fields none none none []

/-- The body of the `for item_summary in items` loop of `parse_vault`:
scan the item's fields, skip (with logging only) items without a truthy
key or payload, and store `secret_notes or secret_password` according to
the environment scoping rules. -/
def process_item (environment : String) (op_secrets : FieldMap) (item : OPItem) :
    Except PyError FieldMap :=
  match scan_item item with
  | .error e => .error e
  | .ok (key, notes, pw, envs) =>
    match key with
    | none => .ok op_secrets
    | some k =>
      if k = "" then .ok op_secrets
      else
        match py_or notes pw with
        | none => .ok op_secrets
        | some v =>
          if v = "" then .ok op_secrets
          else if envs.contains (some environment) then .ok (dict_set op_secrets k v)
          else if envs.isEmpty ∧ dict_lookup op_secrets k = none then
            .ok (dict_set op_secrets k v)
          else .ok op_secrets

/-- The item loop of `parse_vault`, threading the `op_secrets` dict. -/
def parse_vault_aux (environment : String) : List OPItem → FieldMap → Except PyError FieldMap
  | [], acc => .ok acc
  | item :: rest, acc =>
    match process_item environment acc item with
    | .error e => .error e
    | .ok acc' => parse_vault_aux environment rest acc'

/-- `OnePasswordSecretGenerator.parse_vault`: fold the item loop over the
vault's items in enumeration order, starting from the empty dict. -/
def parse_vault (environment : String) (items : List OPItem) : Except PyError FieldMap :=
  parse_vault_aux environment items []

/-- The key, payload and environment labels an item contributes to the
scan, or `none` when the item is skipped (no truthy key or no truthy
payload) or its field scan raises.  Derived notion used to state the
scoping theorems. -/
def item_contrib (item : OPItem) : Option (String × String × List (Option String)) :=
  match scan_item item with
  | .error _ => none
  | .ok (key, notes, pw, envs) =>
    match key with
    | none => none
    | some k =>
      if k = "" then none
      else
        match py_or notes pw with
        | none => none
        | some v => if v = "" then none else some (k, v, envs)

/-- Item `item` is a scoped match for key `k` with value `v` when resolving
for `environment`: it contributes `(k, v)` and its environment labels
include the target environment. -/
def scoped_match (environment : String) (item : OPItem) (k v : String) : Prop :=
  ∃ envs, item_contrib item = some (k, v, envs) ∧ envs.contains (some environment) = true

/-- Python `str.split()` with no separator: split on runs of whitespace,
discarding leading and trailing whitespace. -/
def py_split_aux : List Char → List Char → List String
  | [], cur => if cur.isEmpty then [] else [String.mk cur.reverse]
  | c :: rest, cur =>
    if c.isWhitespace then
      if cur.isEmpty then py_split_aux rest []
      else String.mk cur.reverse :: py_split_aux rest []
    else py_split_aux rest (c :: cur)

/-- `composite_key.split()`. -/
def py_split (s : String) : List String := py_split_aux s.data []

/-- The post-merge overlay loop of `OnePasswordSecretGenerator.generate`:
for each resolved generation key in dict order, unpack it into component
and field (a `ValueError` on anything but exactly two tokens), skip the
conditionally branching components, and otherwise overlay the 1Password
value through `input_field`.  The store at the moment an exception is
raised is returned alongside the error, so partial mutation before an
abort stays observable. -/
def overlay_aux (all : FieldMap) : FieldMap → Store → Store × Option PyError
  | [], s => (s, none)
  | (key, _) :: rest, s =>
    match py_split key with
    | [c, n] =>
      if c = "ingress-nginx" ∨ c = "cert-manager" then overlay_aux all rest s
      else
        match op_field all c n s with
        | .error e => (s, some e)
        | .ok s' => overlay_aux all rest s'
    | _ => (s, some (.unpackError key))

/-- The overlay pass over the whole resolved mapping. -/
def overlay (op_secrets : FieldMap) (s : Store) : Store × Option PyError :=
  overlay_aux op_secrets op_secrets s

/-- `OnePasswordSecretGenerator.generate`: the inherited resolution with
the vault-backed adapter followed by the overlay pass. -/
def op_generate (op_secrets : FieldMap) (regenerate : Bool) (hash_of : String → String)
    (now_time fresh_token : String) (cm_fields : List String) (s : Store) :
    Except PyError Store :=
  match generate (op_adapter op_secrets) regenerate hash_of now_time fresh_token cm_fields s with
  | .error e => .error e
  | .ok s' =>
    match overlay op_secrets s' with
    | (s'', none) => .ok s''
    | (_, some e) => .error e

/-- Two vault items both scoped to "prod" carrying the same generation key
with different payloads, in scan order. -/
def dup_item_first : OPItem :=
  ⟨"dup-first", [⟨"generate_secrets_key", "", some "app token"⟩,
    ⟨"environment", "", some "prod"⟩, ⟨"notesPlain", "", some "A"⟩]⟩

/-- The later duplicate of `dup_item_first`. -/
def dup_item_second : OPItem :=
  ⟨"dup-second", [⟨"generate_secrets_key", "", some "app token"⟩,
    ⟨"environment", "", some "prod"⟩, ⟨"notesPlain", "", some "B"⟩]⟩

/-- A global vault item (no environment labels) for key "app token". -/
def global_item : OPItem :=
  ⟨"global", [⟨"generate_secrets_key", "", some "app token"⟩,
    ⟨"notesPlain", "", some "A"⟩]⟩

/-- A "prod"-scoped vault item for the same key as `global_item`. -/
def scoped_item : OPItem :=
  ⟨"scoped", [⟨"generate_secrets_key", "", some "app token"⟩,
    ⟨"environment", "", some "prod"⟩, ⟨"notesPlain", "", some "B"⟩]⟩

/-- A vault item carrying a generation key but neither notes nor password
payload. -/
def payloadless_item : OPItem :=
  ⟨"payloadless", [⟨"generate_secrets_key", "", some "app token"⟩]⟩

/-- Operator inputs of a run that answers the plaintext password prompt,
chooses "n" at the cert-manager branch, and leaves every other prompt
empty. -/
def c3_inputs : String → String → String := fun c n =>
  if c = "installer" then "pw" else if n = "enabled" then "n" else ""

/-- Operator file prompts of that run: always left empty. -/
def c3_files : String → String → Option String := fun _ _ => none

/-- Operator inputs of a run answering the plaintext and the OAuth client
secret prompts. -/
def c4_inputs : String → String → String := fun c n =>
  if c = "installer" then "pw" else if n = "dex.clientSecret" then "d" else ""

/-- Operator file prompts of that run: always left empty. -/
def c4_files : String → String → Option String := fun _ _ => none

/-- A source call is local when a successful call for the field reference
`(c, n)` leaves every other field of the record set unchanged.  Both
adapter implementations of the source satisfy this. -/
def LocalCall (f : String → String → Store → Except PyError Store) : Prop :=
  ∀ c n s s', f c n s = .ok s' →
    ∀ c' n', c' ≠ c ∨ n' ≠ n → getS s' c' n' = getS s c' n'

/-- An adapter both of whose capabilities are local. -/
def LocalAdapter (a : Adapter) : Prop :=
  LocalCall a.input_field ∧ LocalCall a.input_file

theorem dict_lookup_dict_set_same (d : FieldMap) (k v : String) :
    dict_lookup (dict_set d k v) k = some v := by
  induction d with
  | nil => simp [dict_set, dict_lookup]
  | cons e rest ih =>
    by_cases h : e.1 = k
    · simp [dict_set, dict_lookup, h]
    · simp [dict_set, dict_lookup, h, ih]

theorem dict_lookup_dict_set_ne (d : FieldMap) (k k' v : String) (h : k' ≠ k) :
    dict_lookup (dict_set d k v) k' = dict_lookup d k' := by
  induction d with
  | nil => simp [dict_set, dict_lookup, Ne.symm h]
  | cons e rest ih =>
    by_cases he : e.1 = k
    · simp [dict_set, dict_lookup, he, Ne.symm h]
    · by_cases he' : e.1 = k'
      · simp [dict_set, dict_lookup, he, he', h]
      · simp [dict_set, dict_lookup, he, he', ih]

theorem getS_setS_same (s : Store) (c n v : String) :
    getS (setS s c n v) c n = some v := by
  induction s with
  | nil => simp [setS, getS, dict_lookup]
  | cons e rest ih =>
    by_cases h : e.1 = c
    · simp [setS, getS, h, dict_lookup_dict_set_same]
    · simp [setS, getS, h, ih]

theorem getS_setS_ne (s : Store) (c n v c' n' : String) (h : c' ≠ c ∨ n' ≠ n) :
    getS (setS s c n v) c' n' = getS s c' n' := by
  by_cases hc : c' = c
  · subst hc
    rcases h with h | h
    · exact absurd rfl h
    · induction s with
      | nil => simp [setS, getS, dict_lookup, Ne.symm h]
      | cons e rest ih =>
        by_cases he : e.1 = c'
        · simp [setS, getS, he, dict_lookup_dict_set_ne e.2 n n' v h]
        · simp [setS, getS, he, ih]
  · induction s with
    | nil => simp [setS, getS, Ne.symm hc]
    | cons e rest ih =>
      by_cases he : e.1 = c
      · simp [setS, getS, he, Ne.symm hc]
      · by_cases he' : e.1 = c'
        · simp [setS, getS, he, he', hc]
        · simp [setS, getS, he, he', ih]

theorem getS_set_generated_ne (s : Store) (c n v c' n' : String) (reg : Bool)
    (h : c' ≠ c ∨ n' ≠ n) :
    getS (set_generated s c n v reg) c' n' = getS s c' n' := by
  unfold set_generated
  split
  · exact getS_setS_ne s c n v c' n' h
  · rfl

theorem existsS_set_generated_self (s : Store) (c n v : String) (reg : Bool) :
    existsS (set_generated s c n v reg) c n = true := by
  unfold set_generated
  split
  · simp [existsS, getS_setS_same]
  · rename_i hcond
    have h1 := (not_or.mp hcond).1
    simpa using h1

theorem interactive_field_local (inputs : String → String → String) :
    LocalCall (interactive_field inputs) := by
  intro c n s s' h c' n' hne
  simp only [interactive_field, Except.ok.injEq] at h
  subst h
  split
  · rfl
  · exact getS_setS_ne s c n _ c' n' hne

theorem interactive_file_local (files : String → String → Option String) :
    LocalCall (interactive_file files) := by
  intro c n s s' h c' n' hne
  unfold interactive_file at h
  cases hf : files c n with
  | none =>
    rw [hf] at h
    simp only [Except.ok.injEq] at h
    subst h
    rfl
  | some contents =>
    rw [hf] at h
    simp only [Except.ok.injEq] at h
    subst h
    exact getS_setS_ne s c n contents c' n' hne

theorem op_field_local (op_secrets : FieldMap) : LocalCall (op_field op_secrets) := by
  intro c n s s' h c' n' hne
  simp only [op_field] at h
  cases hl : dict_lookup op_secrets (c ++ " " ++ n) with
  | none => rw [hl] at h; exact absurd h (by simp)
  | some v =>
    rw [hl] at h
    simp only [Except.ok.injEq] at h
    subst h
    exact getS_setS_ne s c n v c' n' hne

theorem interactive_adapter_local (inputs : String → String → String)
    (files : String → String → Option String) :
    LocalAdapter (interactive_adapter inputs files) :=
  ⟨interactive_field_local inputs, interactive_file_local files⟩

theorem op_adapter_local (op_secrets : FieldMap) : LocalAdapter (op_adapter op_secrets) :=
  ⟨op_field_local op_secrets, op_field_local op_secrets⟩

theorem cert_manager_only (a : Adapter) (ha : LocalCall a.input_field) :
    ∀ (fs : List String) (s s' : Store), cert_manager a fs s = .ok s' →
      ∀ c n, c ≠ "cert-manager" → getS s' c n = getS s c n := by
  intro fs
  induction fs with
  | nil =>
    intro s s' h c n _
    unfold cert_manager at h
    simp only [Except.ok.injEq] at h
    subst h
    rfl
  | cons f rest ih =>
    intro s s' h c n hc
    unfold cert_manager at h
    cases hf : a.input_field "cert-manager" f s with
    | error e => rw [hf] at h; exact absurd h (by simp)
    | ok s1 =>
      rw [hf] at h
      rw [ih s1 s' h c n hc]
      exact ha "cert-manager" f s s1 hf c n (Or.inl hc)

theorem ingress_nginx_only (a : Adapter) (ha : LocalCall a.input_file) (s s' : Store)
    (h : ingress_nginx a s = .ok s') (c n : String)
    (hc : ¬(c = "ingress-nginx" ∧ (n = "tls.key" ∨ n = "tls.crt"))) :
    getS s' c n = getS s c n := by
  unfold ingress_nginx at h
  cases h1 : a.input_file "ingress-nginx" "tls.key" s with
  | error e => rw [h1] at h; exact absurd h (by simp)
  | ok s1 =>
    rw [h1] at h
    have hne1 : c ≠ "ingress-nginx" ∨ n ≠ "tls.key" := by
      by_cases hci : c = "ingress-nginx"
      · exact Or.inr fun hn => hc ⟨hci, Or.inl hn⟩
      · exact Or.inl hci
    have hne2 : c ≠ "ingress-nginx" ∨ n ≠ "tls.crt" := by
      by_cases hci : c = "ingress-nginx"
      · exact Or.inr fun hn => hc ⟨hci, Or.inr hn⟩
      · exact Or.inl hci
    rw [ha "ingress-nginx" "tls.crt" s1 s' h c n hne2]
    exact ha "ingress-nginx" "tls.key" s s1 h1 c n hne1

theorem argocd_ok_shape (a : Adapter) (reg : Bool) (hash_of : String → String)
    (now_time fresh_token : String) (s s' : Store)
    (h : argocd a reg hash_of now_time fresh_token s = .ok s') :
    ∃ s1 new_pw s3,
      a.input_field "installer" "argocd.admin.plaintext_password" s = .ok s1 ∧
      getS s1 "installer" "argocd.admin.plaintext_password" = some new_pw ∧
      a.input_field "argocd" "dex.clientSecret"
        (argocd_mid reg hash_of now_time
          (getS s "installer" "argocd.admin.plaintext_password") new_pw s1) = .ok s3 ∧
      s' = set_generated s3 "argocd" "server.secretkey" fresh_token reg := by
  simp only [argocd] at h
  cases h1 : a.input_field "installer" "argocd.admin.plaintext_password" s with
  | error e => simp only [h1] at h; exact absurd h (by simp)
  | ok s1 =>
    simp only [h1] at h
    cases h2 : getS s1 "installer" "argocd.admin.plaintext_password" with
    | none => simp only [h2] at h; exact absurd h (by simp)
    | some new_pw =>
      simp only [h2] at h
      cases h3 : a.input_field "argocd" "dex.clientSecret"
          (argocd_mid reg hash_of now_time
            (getS s "installer" "argocd.admin.plaintext_password") new_pw s1) with
      | error e => simp only [h3] at h; exact absurd h (by simp)
      | ok s3 =>
        simp only [h3, Except.ok.injEq] at h
        exact ⟨s1, new_pw, s3, rfl, h2, h3, h.symm⟩

theorem argocd_mid_pos (reg : Bool) (hash_of : String → String) (now_time : String)
    (current_pw : Option String) (new_pw : String) (s1 : Store)
    (h : current_pw ≠ some new_pw ∨ reg = true) :
    argocd_mid reg hash_of now_time current_pw new_pw s1 =
      setS (setS s1 "argocd" "admin.password" (hash_of new_pw))
        "argocd" "admin.passwordMtime" now_time :=
  if_pos h

theorem argocd_mid_neg (reg : Bool) (hash_of : String → String) (now_time : String)
    (current_pw : Option String) (new_pw : String) (s1 : Store)
    (h1 : current_pw = some new_pw) (h2 : reg = false) :
    argocd_mid reg hash_of now_time current_pw new_pw s1 = s1 :=
  if_neg (by simp [h1, h2])

theorem set_generated_noop (s : Store) (c n w : String) (hex : existsS s c n = true) :
    set_generated s c n w false = s := by
  unfold set_generated
  exact if_neg (by simp [hex])

/-- C4: In `_argocd` the bcrypt hash and the password mtime form one
atomic pair driven by the plaintext admin password: with regenerate=false
both are recomputed exactly when the resolved plaintext differs from the
previously persisted value and both are left byte-identical otherwise;
with regenerate=true both are always recomputed; in every run they are
updated together or not at all, never independently. -/
theorem argocd_hash_mtime_atomic (a : Adapter) (ha : LocalAdapter a) (reg : Bool)
    (hash_of : String → String) (now_time fresh_token : String) (s s1 s' : Store)
    (new_pw : String)
    (h1 : a.input_field "installer" "argocd.admin.plaintext_password" s = .ok s1)
    (h2 : getS s1 "installer" "argocd.admin.plaintext_password" = some new_pw)
    (hok : argocd a reg hash_of now_time fresh_token s = .ok s') :
    ((getS s "installer" "argocd.admin.plaintext_password" ≠ some new_pw ∨ reg = true) →
      getS s' "argocd" "admin.password" = some (hash_of new_pw) ∧
      getS s' "argocd" "admin.passwordMtime" = some now_time) ∧
    (getS s "installer" "argocd.admin.plaintext_password" = some new_pw → reg = false →
      getS s' "argocd" "admin.password" = getS s "argocd" "admin.password" ∧
      getS s' "argocd" "admin.passwordMtime" = getS s "argocd" "admin.passwordMtime") := by
  obtain ⟨t1, npw, s3, g1, g2, g3, g4⟩ :=
    argocd_ok_shape a reg hash_of now_time fresh_token s s' hok
  rw [h1] at g1
  injection g1 with g1
  subst g1
  rw [h2] at g2
  injection g2 with g2
  subst g2
  have hpw : getS s' "argocd" "admin.password" =
      getS (argocd_mid reg hash_of now_time
        (getS s "installer" "argocd.admin.plaintext_password") new_pw s1)
        "argocd" "admin.password" := by
    rw [g4, getS_set_generated_ne _ _ _ _ _ _ _ (Or.inr (by decide))]
    exact ha.1 "argocd" "dex.clientSecret" _ s3 g3 "argocd" "admin.password"
      (Or.inr (by decide))
  have hmt : getS s' "argocd" "admin.passwordMtime" =
      getS (argocd_mid reg hash_of now_time
        (getS s "installer" "argocd.admin.plaintext_password") new_pw s1)
        "argocd" "admin.passwordMtime" := by
    rw [g4, getS_set_generated_ne _ _ _ _ _ _ _ (Or.inr (by decide))]
    exact ha.1 "argocd" "dex.clientSecret" _ s3 g3 "argocd" "admin.passwordMtime"
      (Or.inr (by decide))
  constructor
  · intro hcond
    rw [hpw, hmt, argocd_mid_pos _ _ _ _ _ _ hcond]
    constructor
    · rw [getS_setS_ne _ _ _ _ _ _ (Or.inr (by decide))]
      exact getS_setS_same _ _ _ _
    · exact getS_setS_same _ _ _ _
  · intro heq hreg
    rw [hpw, hmt, argocd_mid_neg _ _ _ _ _ _ heq hreg]
    constructor
    · exact ha.1 "installer" "argocd.admin.plaintext_password" s s1 h1
        "argocd" "admin.password" (Or.inl (by decide))
    · exact ha.1 "installer" "argocd.admin.plaintext_password" s s1 h1
        "argocd" "admin.passwordMtime" (Or.inl (by decide))

/-- Witness for C4: a concrete first run from an empty record set, where
the plaintext resolves to "pw" (differing from the absent persisted
value), so the pair is recomputed. -/
theorem argocd_hash_mtime_atomic_witness :
    getS [("installer", [("argocd.admin.plaintext_password", "pw")]),
        ("argocd", [("admin.password", "H"), ("admin.passwordMtime", "T"),
          ("dex.clientSecret", "d"), ("server.secretkey", "K")])]
      "argocd" "admin.password" = some "H" ∧
    getS [("installer", [("argocd.admin.plaintext_password", "pw")]),
        ("argocd", [("admin.password", "H"), ("admin.passwordMtime", "T"),
          ("dex.clientSecret", "d"), ("server.secretkey", "K")])]
      "argocd" "admin.passwordMtime" = some "T" :=
  (argocd_hash_mtime_atomic (interactive_adapter c4_inputs c4_files)
    (interactive_adapter_local c4_inputs c4_files) false (fun _ => "H") "T" "K"
    [] [("installer", [("argocd.admin.plaintext_password", "pw")])]
    [("installer", [("argocd.admin.plaintext_password", "pw")]),
      ("argocd", [("admin.password", "H"), ("admin.passwordMtime", "T"),
        ("dex.clientSecret", "d"), ("server.secretkey", "K")])]
    "pw" rfl rfl rfl).1 (Or.inl (by decide))

/-- C6: Generated fields are stable: an existing value with
regenerate=false is left byte-identical; a fresh value is written exactly
when no value exists or regeneration is forced; a second `_set_generated`
with regenerate=false never changes the value (idempotence across runs);
and a `_argocd` run with regenerate=false preserves an existing ArgoCD
`server.secretkey` byte-identically. -/
theorem generated_field_stable (s s' : Store) (c n v w old : String) (reg : Bool)
    (a : Adapter) (ha : LocalAdapter a) (hash_of : String → String)
    (now_time fresh_token : String) :
    (existsS s c n = true → set_generated s c n v false = s) ∧
    (existsS s c n = false ∨ reg = true → set_generated s c n v reg = setS s c n v) ∧
    (getS (set_generated (set_generated s c n v reg) c n w false) c n =
      getS (set_generated s c n v reg) c n) ∧
    (getS s "argocd" "server.secretkey" = some old →
      argocd a false hash_of now_time fresh_token s = .ok s' →
      getS s' "argocd" "server.secretkey" = some old) := by
  refine ⟨fun hex => set_generated_noop s c n v hex, fun hcond => if_pos hcond, ?_, ?_⟩
  · rw [set_generated_noop _ _ _ _ (existsS_set_generated_self s c n v reg)]
  · intro hold hok
    obtain ⟨s1, npw, s3, g1, g2, g3, g4⟩ :=
      argocd_ok_shape a false hash_of now_time fresh_token s s' hok
    have e1 : getS s1 "argocd" "server.secretkey" = some old := by
      rw [ha.1 "installer" "argocd.admin.plaintext_password" s s1 g1
        "argocd" "server.secretkey" (Or.inl (by decide))]
      exact hold
    have e2 : getS (argocd_mid false hash_of now_time
        (getS s "installer" "argocd.admin.plaintext_password") npw s1)
        "argocd" "server.secretkey" = some old := by
      unfold argocd_mid
      split
      · rw [getS_setS_ne _ _ _ _ _ _ (Or.inr (by decide)),
          getS_setS_ne _ _ _ _ _ _ (Or.inr (by decide))]
        exact e1
      · exact e1
    have e3 : getS s3 "argocd" "server.secretkey" = some old := by
      rw [ha.1 "argocd" "dex.clientSecret" _ s3 g3 "argocd" "server.secretkey"
        (Or.inr (by decide))]
      exact e2
    rw [g4, set_generated_noop _ _ _ _ (by simp [existsS, e3])]
    exact e3

/-- Witness for C6: an existing `server.secretkey` with regenerate=false
is left untouched by `_set_generated`. -/
theorem generated_field_stable_witness :
    set_generated [("argocd", [("server.secretkey", "old")])]
      "argocd" "server.secretkey" "new" false
      = [("argocd", [("server.secretkey", "old")])] :=
  (generated_field_stable [("argocd", [("server.secretkey", "old")])] []
    "argocd" "server.secretkey" "new" "w" "old" false
    (interactive_adapter (fun _ _ => "") (fun _ _ => none))
    (interactive_adapter_local _ _) (fun _ => "H") "T" "K").1 (by decide)

/-- C7: the orchestration `load; generate; save` persists only on
success: a run whose resolution fails leaves the on-disk record set
byte-identical (save is never invoked), and the disk is rewritten through
`save` exactly when `generate` succeeds. -/
theorem failed_run_preserves_disk (a : Adapter) (reg : Bool) (hash_of : String → String)
    (now_time fresh_token : String) (cm_fields : List String) (disk : Store) :
    (∀ e, generate a reg hash_of now_time fresh_token cm_fields disk = .error e →
      (run_main a reg hash_of now_time fresh_token cm_fields disk).1 = disk) ∧
    (∀ s', generate a reg hash_of now_time fresh_token cm_fields disk = .ok s' →
      run_main a reg hash_of now_time fresh_token cm_fields disk = (save disk s', none)) := by
  constructor
  · intro e he
    unfold run_main
    rw [he]
  · intro s' hs
    unfold run_main
    rw [hs]

/-- Witness for C7: a vault-backed run with an empty resolved mapping
fails on the very first field and leaves the disk untouched. -/
theorem failed_run_preserves_disk_witness :
    (run_main (op_adapter []) false (fun _ => "H") "T" "K" [] [("x", [("y", "z")])]).1
      = [("x", [("y", "z")])] :=
  (failed_run_preserves_disk (op_adapter []) false (fun _ => "H") "T" "K" []
    [("x", [("y", "z")])]).1 (.opNotFound "pull-secret .dockerconfigjson") rfl

/-- C2: branch exclusivity of the `cert-manager enabled` field: "y"
dispatches to the certificate-manager resolution and a successful "y"
branch changes no field outside the cert-manager component; "n"
dispatches to the ingress TLS resolution and a successful "n" branch
changes nothing but `ingress-nginx tls.key` and `ingress-nginx tls.crt`;
any other value raises the fatal configuration error, never silently
defaulting. -/
theorem branch_field_exclusive (a : Adapter) (ha : LocalAdapter a)
    (cm_fields : List String) (v : String) (s : Store) :
    (v = "y" → branch_on a cm_fields v s = cert_manager a cm_fields s ∧
      ∀ s', branch_on a cm_fields v s = .ok s' →
        ∀ c n, c ≠ "cert-manager" → getS s' c n = getS s c n) ∧
    (v = "n" → branch_on a cm_fields v s = ingress_nginx a s ∧
      ∀ s', branch_on a cm_fields v s = .ok s' →
        ∀ c n, ¬(c = "ingress-nginx" ∧ (n = "tls.key" ∨ n = "tls.crt")) →
          getS s' c n = getS s c n) ∧
    (v ≠ "y" → v ≠ "n" → branch_on a cm_fields v s = .error (.invalidCertManager v)) := by
  refine ⟨?_, ?_, ?_⟩
  · intro hv
    subst hv
    have hb : branch_on a cm_fields "y" s = cert_manager a cm_fields s := by
      unfold branch_on
      exact if_pos rfl
    refine ⟨hb, ?_⟩
    intro s' h c n hc
    rw [hb] at h
    exact cert_manager_only a ha.1 cm_fields s s' h c n hc
  · intro hv
    subst hv
    have hb : branch_on a cm_fields "n" s = ingress_nginx a s := by
      unfold branch_on
      rw [if_neg (by decide), if_pos rfl]
    refine ⟨hb, ?_⟩
    intro s' h c n hc
    rw [hb] at h
    exact ingress_nginx_only a ha.2 s s' h c n hc
  · intro hy hn
    unfold branch_on
    rw [if_neg hy, if_neg hn]

/-- Witness for C2: a branch value other than "y"/"n" raises the fatal
configuration error. -/
theorem branch_field_exclusive_witness :
    branch_on (interactive_adapter (fun _ _ => "") (fun _ _ => none)) [] "x" []
      = .error (.invalidCertManager "x") :=
  (branch_field_exclusive (interactive_adapter (fun _ _ => "") (fun _ _ => none))
    (interactive_adapter_local _ _) [] "x" []).2.2 (by decide) (by decide)

theorem process_item_contrib_none (environment : String) (d : FieldMap) (item : OPItem)
    (hc : item_contrib item = none) (d' : FieldMap)
    (h : process_item environment d item = .ok d') : d' = d := by
  unfold process_item at h
  unfold item_contrib at hc
  cases hs : scan_item item with
  | error e => simp only [hs] at h; exact absurd h (by simp)
  | ok r =>
    obtain ⟨key, notes, pw, envs⟩ := r
    simp only [hs] at h hc
    cases key with
    | none => simp only [Except.ok.injEq] at h; exact h.symm
    | some k =>
      by_cases hk : k = ""
      · simp [hk] at h
        exact h.symm
      · simp only [if_neg hk] at h hc
        cases hpv : py_or notes pw with
        | none =>
          simp only [hpv, Except.ok.injEq] at h
          exact h.symm
        | some v =>
          simp only [hpv] at h hc
          by_cases hv : v = ""
          · simp [hv] at h
            exact h.symm
          · simp [hv] at hc

theorem process_item_contrib_some (environment : String) (d : FieldMap) (item : OPItem)
    (k v : String) (envs : List (Option String))
    (hc : item_contrib item = some (k, v, envs)) :
    process_item environment d item =
      .ok (if envs.contains (some environment) then dict_set d k v
        else if envs.isEmpty ∧ dict_lookup d k = none then dict_set d k v
        else d) := by
  unfold process_item
  unfold item_contrib at hc
  cases hs : scan_item item with
  | error e => simp [hs] at hc
  | ok r =>
    obtain ⟨key, notes, pw, envs'⟩ := r
    simp only [hs] at hc ⊢
    cases key with
    | none => simp at hc
    | some k' =>
      by_cases hk : k' = ""
      · simp [hk] at hc
      · simp only [if_neg hk] at hc ⊢
        cases hpv : py_or notes pw with
        | none => simp [hpv] at hc
        | some v' =>
          simp only [hpv] at hc ⊢
          by_cases hv : v' = ""
          · simp [hv] at hc
          · simp only [if_neg hv] at hc ⊢
            simp only [Option.some.injEq, Prod.mk.injEq] at hc
            obtain ⟨rfl, rfl, rfl⟩ := hc
            by_cases hm : envs'.contains (some environment) = true
            · rw [if_pos hm, if_pos hm]
            · rw [if_neg hm, if_neg hm]
              by_cases hg : envs'.isEmpty = true ∧ dict_lookup d k' = none
              · rw [if_pos hg, if_pos hg]
              · rw [if_neg hg, if_neg hg]

theorem process_item_preserves (environment : String) (d d' : FieldMap) (item : OPItem)
    (k v : String) (hl : dict_lookup d k = some v)
    (hnot : ∀ v', ¬ scoped_match environment item k v')
    (hok : process_item environment d item = .ok d') :
    dict_lookup d' k = some v := by
  cases hc : item_contrib item with
  | none => rw [process_item_contrib_none environment d item hc d' hok]; exact hl
  | some t =>
    obtain ⟨k', v', envs⟩ := t
    rw [process_item_contrib_some environment d item k' v' envs hc] at hok
    simp only [Except.ok.injEq] at hok
    subst hok
    by_cases hmem : envs.contains (some environment) = true
    · by_cases hkk : k' = k
      · subst hkk
        exact absurd ⟨envs, hc, hmem⟩ (hnot v')
      · rw [if_pos hmem, dict_lookup_dict_set_ne d k' k v' (fun hh => hkk hh.symm)]
        exact hl
    · rw [if_neg hmem]
      by_cases hglob : envs.isEmpty ∧ dict_lookup d k' = none
      · by_cases hkk : k' = k
        · subst hkk
          rw [hl] at hglob
          exact absurd hglob.2 (by simp)
        · rw [if_pos hglob, dict_lookup_dict_set_ne d k' k v' (fun hh => hkk hh.symm)]
          exact hl
      · rw [if_neg hglob]
        exact hl

theorem parse_vault_aux_append (environment : String) (xs ys : List OPItem) (acc : FieldMap) :
    parse_vault_aux environment (xs ++ ys) acc =
      match parse_vault_aux environment xs acc with
      | .error e => .error e
      | .ok acc' => parse_vault_aux environment ys acc' := by
  induction xs generalizing acc with
  | nil => simp [parse_vault_aux]
  | cons item rest ih =>
    simp only [List.cons_append, parse_vault_aux]
    cases process_item environment acc item with
    | error e => rfl
    | ok acc' => exact ih acc'

theorem parse_vault_aux_preserves (environment k v : String) :
    ∀ (items : List OPItem) (acc m : FieldMap),
      dict_lookup acc k = some v →
      (∀ it ∈ items, ∀ v', ¬ scoped_match environment it k v') →
      parse_vault_aux environment items acc = .ok m →
      dict_lookup m k = some v := by
  intro items
  induction items with
  | nil =>
    intro acc m hacc _ hok
    unfold parse_vault_aux at hok
    simp only [Except.ok.injEq] at hok
    subst hok
    exact hacc
  | cons it rest ih =>
    intro acc m hacc hno hok
    unfold parse_vault_aux at hok
    cases hp : process_item environment acc it with
    | error e => simp only [hp] at hok; exact absurd hok (by simp)
    | ok acc' =>
      simp only [hp] at hok
      exact ih acc' m
        (process_item_preserves environment acc acc' it k v hacc (hno it (by simp)) hp)
        (fun j hj => hno j (by simp [hj])) hok

/-- C1 (amended): when several items whose environment labels include the
target environment carry the same generation key, `parse_vault` still
selects exactly one value per key deterministically, but the selected
value is that of the last such item in scan order (last-seen-wins): after
the last scoped match for a key, the stored value is that item's payload,
whatever came before. -/
theorem parse_vault_scoped_last_seen_wins (environment k v : String)
    (pre post : List OPItem) (i : OPItem) (m : FieldMap)
    (hi : scoped_match environment i k v)
    (hpost : ∀ j ∈ post, ∀ v', ¬ scoped_match environment j k v')
    (hm : parse_vault environment (pre ++ i :: post) = .ok m) :
    dict_lookup m k = some v := by
  obtain ⟨envs, hc, hmem⟩ := hi
  unfold parse_vault at hm
  rw [parse_vault_aux_append] at hm
  cases hpre : parse_vault_aux environment pre [] with
  | error e => simp only [hpre] at hm; exact absurd hm (by simp)
  | ok d0 =>
    simp only [hpre] at hm
    unfold parse_vault_aux at hm
    rw [process_item_contrib_some environment d0 i k v envs hc] at hm
    simp only [if_pos hmem] at hm
    exact parse_vault_aux_preserves environment k v post (dict_set d0 k v) m
      (dict_lookup_dict_set_same d0 k v) hpost hm

/-- C1 counterexample: two "prod"-scoped items carry the same key with
payloads "A" then "B" in scan order; first-seen-wins as claimed would
select "A", but `parse_vault` keeps the value of the second item, "B". -/
theorem parse_vault_first_seen_cex :
    parse_vault "prod" [dup_item_first, dup_item_second] = .ok [("app token", "B")] ∧
    dict_lookup [("app token", "B")] "app token" = some "B" ∧
    some "B" ≠ (some "A" : Option String) :=
  ⟨rfl, rfl, by decide⟩

/-- Witness for C1 (amended): a run in which a global item precedes the
only scoped match; the scoped payload "B" is selected. -/
theorem parse_vault_scoped_last_seen_wins_witness :
    dict_lookup [("app token", "B")] "app token" = some "B" :=
  parse_vault_scoped_last_seen_wins "prod" "app token" "B" [global_item] []
    scoped_item [("app token", "B")]
    ⟨[some "prod"], rfl, rfl⟩ (fun j hj => absurd hj (List.not_mem_nil j)) rfl

/-- C5: an item whose labels include the target environment always beats
a global item for the same key, in either scan order; for an environment
matched by no scoped item, the global value wins, in either scan order. -/
theorem vault_scoping_precedence (env_t env_o k vA vB : String)
    (lbls : List (Option String)) (gi si : OPItem)
    (hg : item_contrib gi = some (k, vA, []))
    (hs : item_contrib si = some (k, vB, lbls))
    (hT : lbls.contains (some env_t) = true)
    (hO : lbls.contains (some env_o) = false) :
    (parse_vault env_t [gi, si] = .ok [(k, vB)] ∧
     parse_vault env_t [si, gi] = .ok [(k, vB)]) ∧
    (parse_vault env_o [gi, si] = .ok [(k, vA)] ∧
     parse_vault env_o [si, gi] = .ok [(k, vA)]) := by
  have hne : lbls.isEmpty = false := by
    cases lbls with
    | nil => simp at hT
    | cons a t => rfl
  have run2 : ∀ (env : String) (i1 i2 : OPItem) (d1 d2 : FieldMap),
      process_item env [] i1 = .ok d1 → process_item env d1 i2 = .ok d2 →
      parse_vault env [i1, i2] = .ok d2 := by
    intro env i1 i2 d1 d2 p1 p2
    unfold parse_vault
    simp only [parse_vault_aux, p1, p2]
  have e1 : ∀ env, ¬ lbls.contains (some env) = true →
      process_item env [] si = .ok [] := by
    intro env hcon
    rw [process_item_contrib_some env [] si k vB lbls hs, if_neg hcon,
      if_neg (by simp [hne])]
  have e2 : ∀ env, process_item env [] gi = .ok [(k, vA)] := by
    intro env
    rw [process_item_contrib_some env [] gi k vA [] hg]
    rfl
  have e3 : ∀ env, lbls.contains (some env) = true →
      ∀ d : FieldMap, process_item env d si = .ok (dict_set d k vB) := by
    intro env hcon d
    rw [process_item_contrib_some env d si k vB lbls hs, if_pos hcon]
  have e4 : ∀ env, process_item env [(k, vB)] gi = .ok [(k, vB)] := by
    intro env
    rw [process_item_contrib_some env [(k, vB)] gi k vA [] hg]
    rw [if_neg (show ¬(([] : List (Option String)).contains (some env) = true) by simp)]
    rw [if_neg (show ¬(([] : List (Option String)).isEmpty = true ∧
      dict_lookup [(k, vB)] k = none) by simp [dict_lookup])]
  have e5 : ∀ env, ¬ lbls.contains (some env) = true →
      process_item env [(k, vA)] si = .ok [(k, vA)] := by
    intro env hcon
    rw [process_item_contrib_some env [(k, vA)] si k vB lbls hs, if_neg hcon,
      if_neg (by simp [hne])]
  have hset : dict_set ([(k, vA)] : FieldMap) k vB = [(k, vB)] := by
    simp [dict_set]
  refine ⟨⟨?_, ?_⟩, ?_, ?_⟩
  · exact run2 env_t gi si [(k, vA)] [(k, vB)] (e2 env_t) (hset ▸ e3 env_t hT [(k, vA)])
  · exact run2 env_t si gi (dict_set [] k vB) [(k, vB)] (e3 env_t hT []) (e4 env_t)
  · exact run2 env_o gi si [(k, vA)] [(k, vA)] (e2 env_o)
      (e5 env_o (by rw [hO]; decide))
  · exact run2 env_o si gi [] [(k, vA)] (e1 env_o (by rw [hO]; decide)) (e2 env_o)

/-- Witness for C5 at concrete items and environments. -/
theorem vault_scoping_precedence_witness :
    (parse_vault "prod" [global_item, scoped_item] = .ok [("app token", "B")] ∧
     parse_vault "prod" [scoped_item, global_item] = .ok [("app token", "B")]) ∧
    (parse_vault "dev" [global_item, scoped_item] = .ok [("app token", "A")] ∧
     parse_vault "dev" [scoped_item, global_item] = .ok [("app token", "A")]) :=
  vault_scoping_precedence "prod" "dev" "app token" "A" "B" [some "prod"]
    global_item scoped_item rfl rfl rfl rfl

/-- C8: for a vault item whose field scan yields a generation key, the
payload is taken as the notes field when truthy, else the password field;
an item with a key but no truthy payload contributes nothing to the
resolved mapping and never aborts the scan: the item loop only logs and
skips it, and cannot raise once the field scan has succeeded. -/
theorem vault_item_payload_selection (environment : String) (d : FieldMap) (item : OPItem)
    (k : String) (notes pw : Option String) (envs : List (Option String))
    (hs : scan_item item = .ok (some k, notes, pw, envs)) (hk : k ≠ "") :
    (∀ nv, notes = some nv → nv ≠ "" → item_contrib item = some (k, nv, envs)) ∧
    (truthy notes = false → ∀ pv, pw = some pv → pv ≠ "" →
      item_contrib item = some (k, pv, envs)) ∧
    (truthy notes = false → truthy pw = false →
      item_contrib item = none ∧ process_item environment d item = .ok d) ∧
    (∀ e, process_item environment d item ≠ .error e) := by
  have hcontrib : item_contrib item =
      (match py_or notes pw with
        | none => none
        | some v => if v = "" then none else some (k, v, envs)) := by
    unfold item_contrib
    simp [hs, hk]
  have hproc : process_item environment d item =
      (match py_or notes pw with
        | none => .ok d
        | some v =>
          if v = "" then .ok d
          else if envs.contains (some environment) then .ok (dict_set d k v)
          else if envs.isEmpty ∧ dict_lookup d k = none then .ok (dict_set d k v)
          else .ok d) := by
    unfold process_item
    simp [hs, hk]
  refine ⟨?_, ?_, ?_, ?_⟩
  · intro nv hnv hne
    subst hnv
    have hpy : py_or (some nv) pw = some nv := by
      unfold py_or
      rw [if_pos (by simp [truthy, hne])]
    rw [hcontrib, hpy]
    simp [hne]
  · intro hfalse pv hpv hne
    subst hpv
    have hpy : py_or notes (some pv) = some pv := by
      unfold py_or
      rw [if_neg (by simp [hfalse])]
    rw [hcontrib, hpy]
    simp [hne]
  · intro hfn hfp
    have hpy : py_or notes pw = pw := by
      unfold py_or
      rw [if_neg (by simp [hfn])]
    constructor
    · rw [hcontrib, hpy]
      cases pw with
      | none => rfl
      | some p =>
        have hp : p = "" := by simpa [truthy] using hfp
        simp [hp]
    · rw [hproc, hpy]
      cases pw with
      | none => rfl
      | some p =>
        have hp : p = "" := by simpa [truthy] using hfp
        simp [hp]
  · intro e
    rw [hproc]
    cases py_or notes pw with
    | none => simp
    | some v =>
      dsimp only
      by_cases hv : v = ""
      · simp [hv]
      · rw [if_neg hv]
        by_cases hm : envs.contains (some environment) = true
        · rw [if_pos hm]
          simp
        · rw [if_neg hm]
          by_cases hg2 : envs.isEmpty = true ∧ dict_lookup d k = none
          · rw [if_pos hg2]
            simp
          · rw [if_neg hg2]
            simp

/-- Witness for C8: the payload-less item is skipped without aborting. -/
theorem vault_item_payload_selection_witness :
    item_contrib payloadless_item = none ∧
    process_item "prod" [("x", "y")] payloadless_item = .ok [("x", "y")] :=
  ((vault_item_payload_selection "prod" [("x", "y")] payloadless_item "app token"
    none none [] rfl (by decide)).2.2.1) rfl rfl

/-- C3 counterexample: with the interactive adapter active, a Supplied
field (`argocd dex.clientSecret`) that has never been set and for which
the adapter returns no value (empty operator input) does not end the run
in a fatal outcome: the whole resolution succeeds and the field is
silently absent from the resolved record set. -/
theorem supplied_field_fatal_cex :
    generate (interactive_adapter c3_inputs c3_files) false (fun _ => "H") "T" "K" [] []
      = .ok [("installer", [("argocd.admin.plaintext_password", "pw")]),
          ("argocd", [("admin.password", "H"), ("admin.passwordMtime", "T"),
            ("server.secretkey", "K")]),
          ("cert-manager", [("enabled", "n")])] ∧
    getS [("installer", [("argocd.admin.plaintext_password", "pw")]),
          ("argocd", [("admin.password", "H"), ("admin.passwordMtime", "T"),
            ("server.secretkey", "K")]),
          ("cert-manager", [("enabled", "n")])] "argocd" "dex.clientSecret" = none :=
  ⟨rfl, rfl⟩

/-- C3 (amended): the fatal source-unavailable outcome holds for the
vault-backed adapter — its `input_field` raises when no 1Password entry
matches the field's key — while the interactive adapter leaves the store
unchanged (hence a never-set field silently absent) when the operator
supplies no value. -/
theorem supplied_field_source_unavailable (op_secrets : FieldMap)
    (inputs : String → String → String) (c n : String) (s : Store) :
    (dict_lookup op_secrets (c ++ " " ++ n) = none →
      op_field op_secrets c n s = .error (.opNotFound (c ++ " " ++ n))) ∧
    (inputs c n = "" → interactive_field inputs c n s = .ok s) := by
  constructor
  · intro h
    simp only [op_field]
    rw [h]
  · intro h
    simp only [interactive_field]
    rw [h]
    simp

/-- Witness for C3 (amended): a missing 1Password entry is fatal. -/
theorem supplied_field_source_unavailable_witness :
    op_field [] "argocd" "dex.clientSecret" []
      = .error (.opNotFound "argocd dex.clientSecret") :=
  (supplied_field_source_unavailable [] (fun _ _ => "") "argocd" "dex.clientSecret" []).1 rfl

theorem overlay_aux_skips (all : FieldMap) :
    ∀ (rest : FieldMap) (s : Store) (n : String),
      getS (overlay_aux all rest s).1 "cert-manager" n = getS s "cert-manager" n ∧
      getS (overlay_aux all rest s).1 "ingress-nginx" n = getS s "ingress-nginx" n := by
  intro rest
  induction rest with
  | nil => intro s n; exact ⟨rfl, rfl⟩
  | cons e rest ih =>
    intro s n
    obtain ⟨key, v⟩ := e
    simp only [overlay_aux]
    cases py_split key with
    | nil => exact ⟨rfl, rfl⟩
    | cons c t =>
      cases t with
      | nil => exact ⟨rfl, rfl⟩
      | cons n2 t2 =>
        cases t2 with
        | cons x xs => exact ⟨rfl, rfl⟩
        | nil =>
          dsimp only
          by_cases hskip : c = "ingress-nginx" ∨ c = "cert-manager"
          · rw [if_pos hskip]
            exact ih s n
          · rw [if_neg hskip]
            push_neg at hskip
            cases hof : op_field all c n2 s with
            | error e2 => exact ⟨rfl, rfl⟩
            | ok s' =>
              obtain ⟨ih1, ih2⟩ := ih s' n
              refine ⟨?_, ?_⟩
              · rw [ih1]
                exact op_field_local all c n2 s s' hof "cert-manager" n
                  (Or.inl (Ne.symm hskip.2))
              · rw [ih2]
                exact op_field_local all c n2 s s' hof "ingress-nginx" n
                  (Or.inl (Ne.symm hskip.1))

/-- C9: the overlay pass never writes any field of the cert-manager or
ingress-nginx components: for every resolved vault mapping and every
starting store (and whether or not the pass aborts part way), those two
components are byte-identical before and after the overlay. -/
theorem overlay_skips_branch_components (op_secrets : FieldMap) (s : Store) (n : String) :
    getS (overlay op_secrets s).1 "cert-manager" n = getS s "cert-manager" n ∧
    getS (overlay op_secrets s).1 "ingress-nginx" n = getS s "ingress-nginx" n :=
  overlay_aux_skips op_secrets op_secrets s n

theorem overlay_aux_append (all xs ys : FieldMap) (s : Store) :
    overlay_aux all (xs ++ ys) s =
      match overlay_aux all xs s with
      | (s1, none) => overlay_aux all ys s1
      | (s1, some e) => (s1, some e) := by
  induction xs generalizing s with
  | nil => simp [overlay_aux]
  | cons e rest ih =>
    obtain ⟨key, v⟩ := e
    simp only [List.cons_append, overlay_aux]
    cases py_split key with
    | nil => rfl
    | cons c t =>
      cases t with
      | nil => rfl
      | cons n2 t2 =>
        cases t2 with
        | cons x xs2 => rfl
        | nil =>
          dsimp only
          by_cases hskip : c = "ingress-nginx" ∨ c = "cert-manager"
          · simp only [if_pos hskip]
            exact ih s
          · simp only [if_neg hskip]
            cases op_field all c n2 s with
            | error e2 => rfl
            | ok s' => exact ih s'

/-- C10 (amended): the overlay does assume every generation key splits
into exactly two whitespace-separated tokens, and when the scan reaches a
key that does not — every earlier key having processed without an
exception — it aborts right there with the unhandled tuple-unpacking
error, not with a named configuration error and not with a skip.  An
earlier key can however abort the pass first with a different error, so
a mapping merely containing a malformed key is not guaranteed the
tuple-unpacking error itself. -/
theorem overlay_unpack_first_failure (m pre post : FieldMap) (k v : String)
    (s s1 : Store)
    (hm : m = pre ++ (k, v) :: post)
    (hk : (py_split k).length ≠ 2)
    (hpre : overlay_aux m pre s = (s1, none)) :
    overlay m s = (s1, some (.unpackError k)) := by
  subst hm
  unfold overlay
  rw [overlay_aux_append, hpre]
  simp only [overlay_aux]
  cases hsp : py_split k with
  | nil => rfl
  | cons c t =>
    cases t with
    | nil => rfl
    | cons n2 t2 =>
      cases t2 with
      | nil => rw [hsp] at hk; exact absurd rfl hk
      | cons x xs2 => rfl

/-- Witness for C10 (amended): a mapping whose sole key "a b c" splits
into three tokens; the overlay aborts at once with the tuple-unpacking
error. -/
theorem overlay_unpack_first_failure_witness :
    overlay [("a b c", "v")] [] = ([], some (.unpackError "a b c")) :=
  overlay_unpack_first_failure [("a b c", "v")] [] [] "a b c" "v" [] []
    rfl (by decide) rfl

/-- C10 counterexample: this mapping contains the one-token key "x", yet
the overlay aborts with the named 1Password configuration error raised by
the earlier key " a b" (whose two tokens re-join to the missing key
"a b"), not with the tuple-unpacking error for "x"; so "the overlay
aborts with an unhandled tuple-unpacking error" fails for some mappings
containing a key with fewer or more than two tokens. -/
theorem overlay_unpack_cex :
    (py_split "x").length = 1 ∧
    dict_lookup [(" a b", "v1"), ("x", "v2")] "x" = some "v2" ∧
    overlay [(" a b", "v1"), ("x", "v2")] [] = ([], some (.opNotFound "a b")) ∧
    (.opNotFound "a b" : PyError) ≠ .unpackError "x" :=
  ⟨rfl, rfl, rfl, by decide⟩
